import Mathlib

/-!
# Verification of the MettBot IRC client core (`ircclient/ircclient.go`, `plugins/admincmds.go`)

Shallow embedding of the client's data model and operations, followed by
theorems settling the specification claims.  Go strings are modelled as Lean
`String` (a wrapper around `List Char`); Go `int` is modelled as `Int`;
Go slices as `List`; the outbound queue (`conn.Output`) is modelled by
returning the list of lines an operation enqueues, in order.  Go panics
(out-of-range indexing) are modelled by `Option`, with `none` for a panic.
Go's byte-level string operations (`len`, slicing) are modelled at character
granularity; the two coincide on ASCII protocol text.
-/

namespace MettBot

/-- A parsed server line (`IRCMessage` in the repository): source hostmask or
server name, protocol verb or numeric, first parameter as `target`, remaining
parameters as `args`. -/
structure IRCMessage where
  source : String
  command : String
  target : String
  args : List String
  deriving Repr, DecidableEq

/-- A parsed user command (`IRCCommand` in the repository), derived from a
message-delivery `IRCMessage` whose text begins with the trigger. -/
structure IRCCommand where
  source : String
  target : String
  command : String
  args : List String
  deriving Repr, DecidableEq

/-- The behavioural interface of a plugin that the embedded core needs: its
identity string (Go `String()`) and its per-command usage string
(Go `Usage(cmd)`). -/
structure Plugin where
  name : String
  usage : String → String

/-- The `handler` struct of `ircclient.go`: the owning plugin, the command
verb, the minimum parameter count and the minimum access level. -/
structure Handler where
  Handler : Plugin
  Command : String
  Minparams : Int
  Minaccess : Int

/-! ## Go string primitives used by the client -/

/-- Go `strings.Replace(s, old, new, -1)` for single-character `old`/`new`:
replace every occurrence of `old` by `new`. -/
def goReplaceChar (old new : Char) (s : String) : String :=
  ⟨s.data.map fun c => if c = old then new else c⟩

/-- Go `s[:n]` on a string: keep the first `n` characters. -/
def goTake (n : Nat) (s : String) : String :=
  ⟨s.data.take n⟩

/-- Go `s[n:]` on a string: drop the first `n` characters. -/
def goDrop (n : Nat) (s : String) : String :=
  ⟨s.data.drop n⟩

/-- Go `s[n:]` with its bounds check: slicing panics (`none`) when
`n > len(s)`, otherwise drops the first `n` characters. -/
def goSliceFrom (n : Nat) (s : String) : Option String :=
  if n ≤ s.data.length then some ⟨s.data.drop n⟩ else none

/-- Go `len(s)` on a string. -/
def goLen (s : String) : Nat :=
  s.data.length

/-- Split a character list at the first occurrence of `sep`: the part before
it, and (when `sep` occurs) the part after it. -/
def splitFirst (sep : Char) : List Char → List Char × Option (List Char)
  | [] => ([], none)
  | c :: cs =>
    if c = sep then ([], some cs)
    else
      let r := splitFirst sep cs
      (c :: r.1, r.2)

/-- Go `strings.SplitN(s, sep, 2)[0]` for a single-character separator: the
prefix of `s` before the first occurrence of `sep` (all of `s` if `sep` does
not occur). -/
def goSplitN2Head (sep : Char) (s : String) : String :=
  ⟨(splitFirst sep s.data).1⟩

/-- Go `strings.Index(s, sub) == 0`, i.e. `sub` occurs at offset 0 of `s`:
this holds exactly when `sub` is a prefix of `s`. -/
def goIndexZero (s sub : String) : Bool :=
  sub.data.isPrefixOf s.data

/-- Split a character list on a separator, keeping empty fields (the
semantics of Go `strings.Split` and of single-space word splitting). -/
def splitChar (sep : Char) : List Char → List (List Char)
  | [] => [[]]
  | c :: cs =>
    match splitChar sep cs with
    | [] => if c = sep then [[], []] else [[c]]
    | w :: ws => if c = sep then [] :: w :: ws else (c :: w) :: ws

/-- Split a string into its space-separated fields. -/
def goSplitSpace (s : String) : List String :=
  (splitChar ' ' s.data).map fun l => ⟨l⟩

/-- Interleave a separator between character lists (Go `strings.Join`). -/
def joinChar (sep : Char) : List (List Char) → List Char
  | [] => []
  | [w] => w
  | w :: ws => w ++ sep :: joinChar sep ws

/-- Go `strings.Join(ws, " ")`. -/
def goJoinSpace (ws : List String) : String :=
  ⟨joinChar ' ' (ws.map String.data)⟩

/-- Whether a string starts with the given character. -/
def goHasPrefixChar (c : Char) (s : String) : Bool :=
  match s.data with
  | [] => false
  | a :: _ => a == c

/-! ## SendLine (`ircclient.go` lines 306–314)

`SendLine` replaces every carriage return and every line feed by a space,
truncates the result to 510 bytes, and places it on `conn.Output`. -/

/-- The sanitized form of a line, as computed by the body of `SendLine`. -/
def sendLineReady (line : String) : String :=
  let l1 := goReplaceChar '\r' ' ' line
  let l2 := goReplaceChar '\n' ' ' l1
  if goLen l2 > 510 then goTake 510 l2 else l2

/-- `SendLine`, as the list of lines it enqueues on `conn.Output`. -/
def SendLine (line : String) : List String :=
  [sendLineReady line]

/-! ## Reply (`ircclient.go` lines 356–364) -/

/-- The target `Reply` chooses: the command's `Target` when it differs from
the client's own nickname, otherwise `strings.SplitN(cmd.Source, "!", 2)[0]`. -/
def replyTarget (nick : String) (cmd : IRCCommand) : String :=
  if cmd.target ≠ nick then cmd.target
  else goSplitN2Head '!' cmd.source

/-- `Reply(cmd, message)`, as the list of lines it enqueues: a single
`NOTICE` line built from the chosen target, passed through `SendLine`. -/
def Reply (nick : String) (cmd : IRCCommand) (message : String) : List String :=
  SendLine ("NOTICE " ++ replyTarget nick cmd ++ " :" ++ message)

/-! ## Shutdown and Disconnect (`ircclient.go` lines 298–302, 316–320)

Modelled as the ordered trace of observable events a call produces. -/

/-- An observable event of the shutdown path: a plugin's `Unregister()` hook
being invoked, a line being placed on `conn.Output`, or the transport being
closed (`conn.Quit()`). -/
inductive ShutdownEvent where
  | unregister (plugin : String)
  | enqueue (line : String)
  | closeTransport
  deriving Repr, DecidableEq

/-- `Shutdown()`: invoke every registered plugin's `Unregister()` hook, in
iteration order over the plugin map (given here as the list of plugin
names). -/
def Shutdown (plugins : List String) : List ShutdownEvent :=
  plugins.map .unregister

/-- `Disconnect(quitmsg)`: run `Shutdown()`, then enqueue the quit line
directly on `conn.Output` (not through `SendLine`), then close the
transport. -/
def Disconnect (plugins : List String) (quitmsg : String) : List ShutdownEvent :=
  Shutdown plugins ++ [.enqueue ("QUIT :" ++ quitmsg), .closeTransport]

/-! ## RegisterCommandHandler (`ircclient.go` lines 55–61)

The handler table (a Go map keyed by the command verb) is modelled as an
association list; insertion of an absent key is modelled by consing. -/

/-- `RegisterCommandHandler(command, minparams, minaccess, plugin)`: fails
with a duplicate-handler error naming the owning plugin when the verb is
already bound, otherwise records the new handler. -/
def RegisterCommandHandler (handlers : List (String × Handler)) (command : String)
    (minparams minaccess : Int) (plugin : Plugin) : Except String (List (String × Handler)) :=
  match handlers.lookup command with
  | some plug => .error ("Handler is already registered by plugin: " ++ plug.Handler.name)
  | none => .ok ((command, ⟨plugin, command, minparams, minaccess⟩) :: handlers)

/-! ## Sanitization lemmas for `SendLine` -/

theorem goReplaceChar_not_mem (old new : Char) (h : new ≠ old) (s : String) :
    old ∉ (goReplaceChar old new s).data := by
  simp only [goReplaceChar, List.mem_map, not_exists, not_and]
  intro c _ hc
  by_cases hco : c = old
  · rw [if_pos hco] at hc
    exact h hc
  · rw [if_neg hco] at hc
    exact hco hc

theorem goReplaceChar_not_mem_of (old new c : Char) (s : String) (hc : c ∉ s.data)
    (h2 : c ≠ new) : c ∉ (goReplaceChar old new s).data := by
  simp only [goReplaceChar, List.mem_map, not_exists, not_and]
  intro a ha hac
  by_cases hao : a = old
  · rw [if_pos hao] at hac
    exact h2 hac.symm
  · rw [if_neg hao] at hac
    exact hc (hac ▸ ha)

theorem sendLineReady_no_cr (line : String) : '\r' ∉ (sendLineReady line).data := by
  have h1 : '\r' ∉ (goReplaceChar '\r' ' ' line).data :=
    goReplaceChar_not_mem '\r' ' ' (by decide) line
  have h2 : '\r' ∉ (goReplaceChar '\n' ' ' (goReplaceChar '\r' ' ' line)).data :=
    goReplaceChar_not_mem_of '\n' ' ' '\r' _ h1 (by decide)
  simp only [sendLineReady]
  split
  · intro hmem
    exact h2 (List.mem_of_mem_take hmem)
  · exact h2

theorem sendLineReady_no_lf (line : String) : '\n' ∉ (sendLineReady line).data := by
  have h2 : '\n' ∉ (goReplaceChar '\n' ' ' (goReplaceChar '\r' ' ' line)).data :=
    goReplaceChar_not_mem '\n' ' ' (by decide) _
  simp only [sendLineReady]
  split
  · intro hmem
    exact h2 (List.mem_of_mem_take hmem)
  · exact h2

theorem sendLineReady_length (line : String) : (sendLineReady line).data.length ≤ 510 := by
  simp only [sendLineReady]
  split
  · simp [goTake]
  · next h => simpa [goLen] using Nat.le_of_not_lt h

/-- C2: every string passed to `SendLine` has its carriage-return and
line-feed characters eliminated (the code replaces each by a space) and is
truncated to at most 510 bytes, and exactly that sanitized line is placed on
the outbound queue. -/
theorem sendLine_sanitizes (line : String) :
    SendLine line = [sendLineReady line] ∧
    '\r' ∉ (sendLineReady line).data ∧
    '\n' ∉ (sendLineReady line).data ∧
    (sendLineReady line).data.length ≤ 510 :=
  ⟨rfl, sendLineReady_no_cr line, sendLineReady_no_lf line, sendLineReady_length line⟩

/-- C9: every line enqueued through `SendLine` is free of CR/LF and at most
510 bytes, but `Disconnect` enqueues its quit line directly, bypassing
`SendLine`, so a quit message containing a line feed reaches the output
queue unsanitized. -/
theorem sendLine_invariant_quit_bypass :
    (∀ line : String, ∀ out ∈ SendLine line,
        '\r' ∉ out.data ∧ '\n' ∉ out.data ∧ out.data.length ≤ 510) ∧
    (ShutdownEvent.enqueue ("QUIT :" ++ "bye\nPRIVMSG #c :oops") ∈
        Disconnect ["admin"] "bye\nPRIVMSG #c :oops") ∧
    '\n' ∈ ("QUIT :" ++ "bye\nPRIVMSG #c :oops").data := by
  refine ⟨?_, ?_, ?_⟩
  · intro line out hout
    simp only [SendLine, List.mem_singleton] at hout
    subst hout
    exact ⟨sendLineReady_no_cr line, sendLineReady_no_lf line, sendLineReady_length line⟩
  · simp [Disconnect, Shutdown]
  · decide

/-- C6: `Disconnect` first runs every plugin's `Unregister` hook exactly
once (positions `0 … n-1` of the trace), then enqueues the quit line
(position `n`), then closes the transport (position `n+1`). -/
theorem disconnect_order (plugins : List String) (quitmsg : String) (hnd : plugins.Nodup) :
    (∀ p ∈ plugins,
        (Disconnect plugins quitmsg).count (.unregister p) = 1) ∧
    (∀ i < plugins.length, ∃ p ∈ plugins,
        (Disconnect plugins quitmsg)[i]? = some (.unregister p)) ∧
    (Disconnect plugins quitmsg)[plugins.length]? =
        some (.enqueue ("QUIT :" ++ quitmsg)) ∧
    (Disconnect plugins quitmsg)[plugins.length + 1]? = some .closeTransport ∧
    (Disconnect plugins quitmsg).length = plugins.length + 2 := by
  refine ⟨?_, ?_, ?_, ?_, ?_⟩
  · intro p hp
    rw [Disconnect, Shutdown, List.count_append]
    have hinj : Function.Injective ShutdownEvent.unregister := by
      intro a b hab
      cases hab
      rfl
    rw [List.count_map_of_injective _ _ hinj]
    rw [List.count_eq_one_of_mem hnd hp]
    simp
  · intro i hi
    rw [Disconnect, Shutdown]
    rw [List.getElem?_append_left (by simpa using hi)]
    rw [List.getElem?_map]
    rcases List.getElem?_eq_some.mpr ⟨hi, rfl⟩ with h
    refine ⟨plugins[i], List.getElem_mem _, ?_⟩
    simp
  · rw [Disconnect, Shutdown]
    rw [List.getElem?_append_right (by simp)]
    simp
  · rw [Disconnect, Shutdown]
    rw [List.getElem?_append_right (by simp)]
    simp
  · simp [Disconnect, Shutdown]

/-- Witness for C6 at a concrete plugin set: with three distinct plugins,
each teardown hook runs exactly once before the quit line, which precedes
the transport close. -/
theorem disconnect_order_witness :
    (∀ p ∈ ["conf", "auth", "admin"],
        (Disconnect ["conf", "auth", "admin"] "bye").count (.unregister p) = 1) ∧
    (∀ i < (["conf", "auth", "admin"] : List String).length, ∃ p ∈ ["conf", "auth", "admin"],
        (Disconnect ["conf", "auth", "admin"] "bye")[i]? = some (.unregister p)) ∧
    (Disconnect ["conf", "auth", "admin"] "bye")[(["conf", "auth", "admin"] : List String).length]? =
        some (.enqueue ("QUIT :" ++ "bye")) ∧
    (Disconnect ["conf", "auth", "admin"] "bye")[(["conf", "auth", "admin"] : List String).length + 1]? =
        some .closeTransport ∧
    (Disconnect ["conf", "auth", "admin"] "bye").length =
        (["conf", "auth", "admin"] : List String).length + 2 :=
  disconnect_order ["conf", "auth", "admin"] "bye" (by decide)

/-- C5: registering a handler for a verb that already has an owner returns a
duplicate-handler error naming the owning plugin, and the first handler
remains bound to the verb. -/
theorem registerCommandHandler_duplicate (handlers : List (String × Handler))
    (command : String) (mp1 ma1 mp2 ma2 : Int) (p1 p2 : Plugin)
    (t1 : List (String × Handler))
    (h1 : RegisterCommandHandler handlers command mp1 ma1 p1 = .ok t1) :
    RegisterCommandHandler t1 command mp2 ma2 p2 =
      .error ("Handler is already registered by plugin: " ++ p1.name) ∧
    t1.lookup command = some ⟨p1, command, mp1, ma1⟩ := by
  unfold RegisterCommandHandler at h1
  rcases hl : handlers.lookup command with _ | plug
  · rw [hl] at h1
    simp only [Except.ok.injEq] at h1
    subst h1
    have hself : List.lookup command ((command, (⟨p1, command, mp1, ma1⟩ : Handler)) :: handlers) =
        some ⟨p1, command, mp1, ma1⟩ := by
      simp [List.lookup]
    refine ⟨?_, hself⟩
    unfold RegisterCommandHandler
    rw [hself]
  · rw [hl] at h1
    simp at h1

/-- Witness for C5 at a concrete table: a second registration of `say`
fails naming the first owner, and the first handler stays bound. -/
theorem registerCommandHandler_duplicate_witness :
    RegisterCommandHandler [("say", ⟨⟨"admin", fun _ => "u"⟩, "say", 2, 500⟩)]
        "say" 3 0 ⟨"second", fun _ => "v"⟩ =
      .error ("Handler is already registered by plugin: " ++ "admin") ∧
    List.lookup "say" [("say", (⟨⟨"admin", fun _ => "u"⟩, "say", 2, 500⟩ : Handler))] =
      some ⟨⟨"admin", fun _ => "u"⟩, "say", 2, 500⟩ :=
  registerCommandHandler_duplicate [] "say" 2 500 3 0 ⟨"admin", fun _ => "u"⟩
    ⟨"second", fun _ => "v"⟩ _ rfl

theorem splitFirst_fst (sep : Char) (l : List Char) :
    (splitFirst sep l).1 = l.takeWhile (fun c => c ≠ sep) := by
  induction l with
  | nil => rfl
  | cons c cs ih =>
    by_cases hc : c = sep
    · simp [splitFirst, hc, List.takeWhile_cons]
    · simp [splitFirst, hc, List.takeWhile_cons, ih]

/-- C7: `Reply` enqueues exactly one notice line; its target is the
command's `Target` when that differs from the client's current nickname,
and otherwise the text of the `Source` hostmask before the first `'!'`. -/
theorem reply_notice_target (nick : String) (cmd : IRCCommand) (message : String) :
    Reply nick cmd message =
      [sendLineReady ("NOTICE " ++
        (if cmd.target = nick then (⟨cmd.source.data.takeWhile (fun c => c ≠ '!')⟩ : String)
         else cmd.target) ++ " :" ++ message)] := by
  by_cases h : cmd.target = nick
  · simp [Reply, replyTarget, SendLine, h, goSplitN2Head, splitFirst_fst]
  · simp [Reply, replyTarget, SendLine, h]

/-! ## Command dispatch (`ircclient.go` lines 237–279)

`dispatchHandlers` parses an inbound line, fans it out to all plugins
(fire-and-forget, no effect on the dispatch result), and for trigger-prefixed
message lines resolves and authorizes the single registered command handler.
The result records the reply lines enqueued and whether the handler's
`ProcessCommand` hook was invoked; `none` models a Go panic. -/

/-- The observable outcome of one dispatch attempt: the reply lines placed on
the outbound queue, and whether the handler's command hook was invoked. -/
structure DispatchResult where
  replies : List String
  invoked : Bool
  deriving Repr, DecidableEq

/-- `GetUsage(cmd)` (`ircclient.go` lines 344–350): the usage string of the
plugin registered for `cmd`, or `"no such command"`. -/
def GetUsage (handlers : List (String × Handler)) (cmd : String) : String :=
  match handlers.lookup cmd with
  | none => "no such command"
  | some plugin => plugin.Handler.usage cmd

/-- The command stage of `dispatchHandlers` (`ircclient.go` lines 263–279):
look up the handler, check minimum access, then minimum parameters, then
invoke. `access` embeds `GetAccessLevel`, `nick` the client's current
nickname. -/
def dispatchCommandStage (nick : String) (access : String → Int)
    (handlers : List (String × Handler)) (c : IRCCommand) : DispatchResult :=
  match handlers.lookup c.command with
  | none => ⟨[], false⟩
  | some handler =>
    if handler.Minaccess > 0 ∧ access c.source < handler.Minaccess then
      ⟨Reply nick c "You are not authorized to do that.", false⟩
    else if (c.args.length : Int) < handler.Minparams then
      ⟨Reply nick c (GetUsage handlers c.command), false⟩
    else ⟨[], true⟩

/-- Modelled from the spec: `parser.go` (providing `ParseCommand`) is not
among the sources. Per §4.1 a Command is derived from a message-delivery
Event by splitting the message text (the Event's first argument) into
space-separated words; the first word becomes the Command verb (the
dispatcher itself checks the trigger prefix beforehand and strips it
afterwards, `ircclient.go` line 260) and the remaining words the Args. -/
def ParseCommand (s : IRCMessage) : Option IRCCommand :=
  if s.command ≠ "PRIVMSG" ∧ s.command ≠ "NOTICE" then none
  else
    match s.args.head? with
    | none => none
    | some text =>
      match (goSplitSpace text).filter (fun w => w ≠ "") with
      | [] => none
      | w :: ws => some ⟨s.source, s.target, w, ws⟩

/-- `dispatchHandlers` from the parsed `IRCMessage` on (`ircclient.go`
lines 250–279; the plugin fan-out of lines 246–248 does not affect the
result).  `none` models a Go panic: the out-of-range read of `s.Args[0]`
on an empty argument slice (line 250), and the out-of-range slice
`c.Command[len(trigger):]` when the trigger is longer than the parsed verb
(line 260, possible when the trigger contains a space). -/
def dispatchHandlers (trigger nick : String) (access : String → Int)
    (handlers : List (String × Handler)) (s : IRCMessage) : Option DispatchResult :=
  if s.command ≠ "PRIVMSG" ∧ s.command ≠ "NOTICE" then some ⟨[], false⟩
  else
    match s.args.head? with
    | none => none
    | some a0 =>
      if ¬ goIndexZero a0 trigger then some ⟨[], false⟩
      else
        match ParseCommand s with
        | none => some ⟨[], false⟩
        | some c =>
          if goLen c.command = 0 then some ⟨[], false⟩
          else
            match goSliceFrom (goLen trigger) c.command with
            | none => none
            | some stripped =>
              some (dispatchCommandStage nick access handlers
                { c with command := stripped })

/-- C1: for a Command with a registered handler, the access check comes
first (when `Minaccess > 0` and the source's level is below it, exactly one
authorization-denied reply and no invocation, regardless of the argument
count), then the parameter check (one usage-string reply, no invocation),
and otherwise the handler's hook is invoked with no reply. -/
theorem dispatch_access_param_gate (nick : String) (access : String → Int)
    (handlers : List (String × Handler)) (c : IRCCommand) (h : Handler)
    (hl : handlers.lookup c.command = some h) :
    dispatchCommandStage nick access handlers c =
      (if h.Minaccess > 0 ∧ access c.source < h.Minaccess then
        ⟨Reply nick c "You are not authorized to do that.", false⟩
       else if (c.args.length : Int) < h.Minparams then
        ⟨Reply nick c (h.Handler.usage c.command), false⟩
       else ⟨[], true⟩) ∧
    ((dispatchCommandStage nick access handlers c).invoked = false →
      (dispatchCommandStage nick access handlers c).replies.length = 1) := by
  have husage : GetUsage handlers c.command = h.Handler.usage c.command := by
    unfold GetUsage
    rw [hl]
  have hmain : dispatchCommandStage nick access handlers c =
      (if h.Minaccess > 0 ∧ access c.source < h.Minaccess then
        ⟨Reply nick c "You are not authorized to do that.", false⟩
       else if (c.args.length : Int) < h.Minparams then
        ⟨Reply nick c (h.Handler.usage c.command), false⟩
       else ⟨[], true⟩) := by
    unfold dispatchCommandStage
    rw [hl, husage]
  refine ⟨hmain, ?_⟩
  rw [hmain]
  split
  · intro _
    simp [Reply, SendLine]
  · split
    · intro _
      simp [Reply, SendLine]
    · intro hfalse
      simp at hfalse

/-- Witness for C1 at a concrete table: a `say` command with too few
arguments from a sender with access 0 against `Minaccess 500` yields the
authorization-denied reply (access is checked before the parameter count). -/
theorem dispatch_access_param_gate_witness :
    dispatchCommandStage "bot" (fun _ => 0)
        [("say", ⟨⟨"admin", fun _ => "say <chan> <msg>"⟩, "say", 2, 500⟩)]
        ⟨"n!u@h", "#c", "say", []⟩ =
      (if (500 : Int) > 0 ∧ (0 : Int) < 500 then
        ⟨Reply "bot" ⟨"n!u@h", "#c", "say", []⟩ "You are not authorized to do that.", false⟩
       else if (([] : List String).length : Int) < 2 then
        ⟨Reply "bot" ⟨"n!u@h", "#c", "say", []⟩ "say <chan> <msg>", false⟩
       else ⟨[], true⟩) ∧
    ((dispatchCommandStage "bot" (fun _ => 0)
        [("say", ⟨⟨"admin", fun _ => "say <chan> <msg>"⟩, "say", 2, 500⟩)]
        ⟨"n!u@h", "#c", "say", []⟩).invoked = false →
      (dispatchCommandStage "bot" (fun _ => 0)
        [("say", ⟨⟨"admin", fun _ => "say <chan> <msg>"⟩, "say", 2, 500⟩)]
        ⟨"n!u@h", "#c", "say", []⟩).replies.length = 1) :=
  dispatch_access_param_gate "bot" (fun _ => 0)
    [("say", ⟨⟨"admin", fun _ => "say <chan> <msg>"⟩, "say", 2, 500⟩)]
    ⟨"n!u@h", "#c", "say", []⟩ ⟨⟨"admin", fun _ => "say <chan> <msg>"⟩, "say", 2, 500⟩ rfl

/-- C8: `dispatchHandlers` reads `s.Args[0]` without first checking that
the argument slice is non-empty, so every message-delivery Event with an
empty argument list makes dispatch panic: dispatch is panic-free only
under the precondition that every such Event carries at least one
argument. -/
theorem dispatch_args0_panic (trigger nick : String) (access : String → Int)
    (handlers : List (String × Handler)) (s : IRCMessage)
    (hverb : s.command = "PRIVMSG" ∨ s.command = "NOTICE") (hargs : s.args = []) :
    dispatchHandlers trigger nick access handlers s = none := by
  unfold dispatchHandlers
  have hv : ¬ (s.command ≠ "PRIVMSG" ∧ s.command ≠ "NOTICE") := by tauto
  rw [if_neg hv]
  simp [hargs]

/-- Witness for C8: a PRIVMSG Event with no arguments panics the
dispatcher. -/
theorem dispatch_args0_panic_witness :
    dispatchHandlers "!" "bot" (fun _ => 0) [] ⟨"n!u@h", "PRIVMSG", "#c", []⟩ = none :=
  dispatch_args0_panic "!" "bot" (fun _ => 0) [] ⟨"n!u@h", "PRIVMSG", "#c", []⟩
    (Or.inl rfl) rfl

/-! ## The admin plugin (`plugins/admincmds.go`) -/

/-- The admin plugin's identity and `Usage` switch
(`admincmds.go` lines 21–23, 29–41). -/
def adminPlugin : Plugin :=
  ⟨"admin", fun cmd =>
    match cmd with
    | "inviteme" => "inviteme <channelname>"
    | "say" => "say <channelname> <message>"
    | "notice" => "notice <channelname> <message>"
    | "action" => "action <channelname> <message>"
    | _ => ""⟩

/-- A `RegisterCommandHandler` call whose error result is discarded, as in
`AdminPlugin.Register` (`admincmds.go` lines 15–18). -/
def registerOrKeep (handlers : List (String × Handler)) (command : String)
    (minparams minaccess : Int) (plugin : Plugin) : List (String × Handler) :=
  match RegisterCommandHandler handlers command minparams minaccess plugin with
  | .ok t => t
  | .error _ => handlers

/-- `AdminPlugin.Register` (`admincmds.go` lines 12–19): register
`inviteme` with `MinParams 1, MinAccess 400` and `say`, `notice`, `action`
with `MinParams 2, MinAccess 500`. -/
def adminRegister (handlers : List (String × Handler)) : List (String × Handler) :=
  registerOrKeep
    (registerOrKeep
      (registerOrKeep
        (registerOrKeep handlers "inviteme" 1 400 adminPlugin)
        "say" 2 500 adminPlugin)
      "notice" 2 500 adminPlugin)
    "action" 2 500 adminPlugin

/-- `AdminPlugin.ProcessCommand` (`admincmds.go` lines 53–64), as the lines
it enqueues; `none` models the Go panic when `cmd.Args[0]` is read on an
empty argument slice. -/
def adminProcessCommand (cmd : IRCCommand) : Option (List String) :=
  match cmd.command with
  | "inviteme" =>
    match cmd.args with
    | [] => none
    | a0 :: _ =>
      some (SendLine ("INVITE " ++ goSplitN2Head '!' cmd.source ++ " " ++ a0))
  | "say" =>
    match cmd.args with
    | [] => none
    | a0 :: rest =>
      some (SendLine ("PRIVMSG " ++ a0 ++ " :" ++ goJoinSpace rest))
  | "notice" =>
    match cmd.args with
    | [] => none
    | a0 :: rest =>
      some (SendLine ("NOTICE " ++ a0 ++ " :" ++ goJoinSpace rest))
  | "action" =>
    match cmd.args with
    | [] => none
    | a0 :: rest =>
      some (SendLine ("PRIVMSG " ++ a0 ++ " :\x01ACTION " ++
        goJoinSpace rest ++ "\x01"))
  | _ => some []

/-- C10: whenever the dispatcher's gate decides to invoke the admin
plugin's hook (so the Command passed its registered `MinParams` check), the
hook's argument indexing is in bounds: `adminProcessCommand` does not
panic. -/
theorem admin_dispatch_safe (nick : String) (access : String → Int)
    (c : IRCCommand) (h : Handler)
    (hl : (adminRegister []).lookup c.command = some h)
    (hinv : (dispatchCommandStage nick access (adminRegister []) c).invoked = true) :
    (adminProcessCommand c).isSome := by
  have hnp : h.Minparams ≤ (c.args.length : Int) := by
    by_contra hlt
    push_neg at hlt
    have hinv' : (if h.Minaccess > 0 ∧ access c.source < h.Minaccess then
          (⟨Reply nick c "You are not authorized to do that.", false⟩ : DispatchResult)
        else if (c.args.length : Int) < h.Minparams then
          ⟨Reply nick c (GetUsage (adminRegister []) c.command), false⟩
        else ⟨[], true⟩).invoked = true := by
      unfold dispatchCommandStage at hinv
      rw [hl] at hinv
      exact hinv
    by_cases hacc : h.Minaccess > 0 ∧ access c.source < h.Minaccess
    · rw [if_pos hacc] at hinv'
      simp at hinv'
    · rw [if_neg hacc, if_pos hlt] at hinv'
      simp at hinv'
  have htable : adminRegister [] =
      [("action", ⟨adminPlugin, "action", 2, 500⟩),
       ("notice", ⟨adminPlugin, "notice", 2, 500⟩),
       ("say", ⟨adminPlugin, "say", 2, 500⟩),
       ("inviteme", ⟨adminPlugin, "inviteme", 1, 400⟩)] := rfl
  rw [htable] at hl
  have hone : 1 ≤ c.args.length → (adminProcessCommand c).isSome := by
    intro hlen
    rcases hargs : c.args with _ | ⟨a0, rest⟩
    · rw [hargs] at hlen
      simp at hlen
    · unfold adminProcessCommand
      rcases hcmd : c.command with ⟨l⟩
      split <;> simp [hargs]
  by_cases ha : c.command = "action"
  · apply hone
    simp [List.lookup, ha] at hl
    have h2 : h.Minparams = 2 := by rw [← hl]
    rw [h2] at hnp
    have h1 : (1 : Int) ≤ (c.args.length : Int) := le_trans (by norm_num) hnp
    exact_mod_cast h1
  · by_cases hn : c.command = "notice"
    · apply hone
      simp [List.lookup, ha, hn] at hl
      have h2 : h.Minparams = 2 := by rw [← hl]
      rw [h2] at hnp
      have h1 : (1 : Int) ≤ (c.args.length : Int) := le_trans (by norm_num) hnp
      exact_mod_cast h1
    · by_cases hs : c.command = "say"
      · apply hone
        simp [List.lookup, ha, hn, hs] at hl
        have h2 : h.Minparams = 2 := by rw [← hl]
        rw [h2] at hnp
        have h1 : (1 : Int) ≤ (c.args.length : Int) := le_trans (by norm_num) hnp
        exact_mod_cast h1
      · by_cases hi : c.command = "inviteme"
        · apply hone
          simp [List.lookup, ha, hn, hs, hi] at hl
          have h2 : h.Minparams = 1 := by rw [← hl]
          rw [h2] at hnp
          exact_mod_cast hnp
        · exfalso
          have ha' : (c.command == "action") = false := by simp [ha]
          have hn' : (c.command == "notice") = false := by simp [hn]
          have hs' : (c.command == "say") = false := by simp [hs]
          have hi' : (c.command == "inviteme") = false := by simp [hi]
          simp [List.lookup, ha', hn', hs', hi'] at hl

/-- Witness for C10: the dispatcher's gate admits
`!say #chan hello` (2 args, `MinParams 2`) for a sender with access 500,
and the admin hook indeed runs without a panic on it. -/
theorem admin_dispatch_safe_witness :
    (adminProcessCommand ⟨"n!u@h", "#c", "say", ["#c", "hi"]⟩).isSome :=
  admin_dispatch_safe "bot" (fun _ => 500) ⟨"n!u@h", "#c", "say", ["#c", "hi"]⟩
    ⟨adminPlugin, "say", 2, 500⟩ rfl rfl

/-! ## Connect and the registration handshake (`ircclient.go` lines 188–235) -/

/-- Collect the parameters of a protocol line: single-space separated words,
with a final word starting with `':'` beginning the trailing parameter,
which absorbs the rest of the line as one argument. -/
def collectParams : List String → List String
  | [] => []
  | w :: ws =>
    if goHasPrefixChar ':' w then [goJoinSpace (goDrop 1 w :: ws)]
    else w :: collectParams ws

/-- Modelled from the spec: `parser.go` (providing `ParseServerLine`) is not
among the sources. Per §6 a line is
`[:source] command [target] [arg1] ... [:trailing]`, single-space separated;
an empty line or a missing command token parses to `none` (§4.1). -/
def ParseServerLine (line : String) : Option IRCMessage :=
  if line = "" then none
  else
    let toks := goSplitSpace line
    let st : String × List String :=
      if goHasPrefixChar ':' line then
        match toks with
        | [] => ("", [])
        | t :: ts => (goDrop 1 t, ts)
      else ("", toks)
    match st.2 with
    | [] => none
    | cmd :: params =>
      if cmd = "" then none
      else
        match collectParams params with
        | [] => some ⟨st.1, cmd, "", []⟩
        | t :: rest => some ⟨st.1, cmd, t, rest⟩

/-- The outcome of the registration loop: success after numeric 001, or the
transport's registration error when the input stream ends first. -/
inductive ConnectOutcome where
  | ok
  | registrationError (e : String)
  deriving Repr, DecidableEq

/-- The observable trace of `Connect`: the lines placed on `conn.Output`,
the nicknames persisted via `SetStringOption("Server", "nick", ·)`, and the
outcome, in order of occurrence. -/
structure ConnectTrace where
  outputs : List String
  nickSets : List String
  outcome : ConnectOutcome
  deriving Repr, DecidableEq

/-- The registration read loop (`ircclient.go` lines 204–233): on a line
with numeric 433, append an underscore to the candidate nickname, persist
it, enqueue a new NICK line and continue; on numeric 001 return success;
on any other (or unparsable) line continue; when the input stream is
exhausted (the transport read failed), return the transport error
(`return <-ic.conn.Err`). -/
def connectLoop (readErr : String) (nick : String) : List String → ConnectTrace
  | [] => ⟨[], [], .registrationError readErr⟩
  | l :: ls =>
    match ParseServerLine l with
    | none => connectLoop readErr nick ls
    | some s =>
      if s.command = "433" then
        let n := nick ++ "_"
        let r := connectLoop readErr n ls
        ⟨("NICK " ++ n) :: r.outputs, n :: r.nickSets, r.outcome⟩
      else if s.command = "001" then ⟨[], [], .ok⟩
      else connectLoop readErr nick ls

/-- The result of `Connect`: a transport connect failure is returned as-is;
otherwise the handshake runs and its trace is the result. -/
inductive ConnectResult where
  | transportError (e : String)
  | finished (t : ConnectTrace)
  deriving Repr, DecidableEq

/-- `Connect()` (`ircclient.go` lines 188–235): propagate a transport
connect error; when the process carries extra command-line arguments
(`len(os.Args) > 1`, the online-restart path) return success immediately;
otherwise enqueue NICK and USER and run the registration loop. -/
def Connect (connectErr : Option String) (argsLen : Nat)
    (nick ident realname readErr : String) (lines : List String) : ConnectResult :=
  match connectErr with
  | some e => .transportError e
  | none =>
    if argsLen > 1 then .finished ⟨[], [], .ok⟩
    else
      let r := connectLoop readErr nick lines
      .finished ⟨("NICK " ++ nick) ::
                   ("USER " ++ ident ++ " * Q :" ++ realname) :: r.outputs,
                 r.nickSets, r.outcome⟩

/-- The claim's success condition: some received line parses with
numeric 001. -/
def receivedWelcome (lines : List String) : Bool :=
  lines.any fun l =>
    match ParseServerLine l with
    | some s => s.command == "001"
    | none => false

theorem connectLoop_ok_iff (readErr : String) (lines : List String) :
    ∀ nick, (connectLoop readErr nick lines).outcome = .ok ↔
      receivedWelcome lines = true := by
  induction lines with
  | nil =>
    intro nick
    simp [connectLoop, receivedWelcome]
  | cons l ls ih =>
    intro nick
    rcases hp : ParseServerLine l with _ | s
    · simp only [connectLoop, hp]
      rw [ih nick]
      simp [receivedWelcome, hp]
    · by_cases h433 : s.command = "433"
      · simp only [connectLoop, hp]
        rw [if_pos h433]
        have hne : (s.command == "001") = false := by
          simp [h433]
        rw [ih (nick ++ "_")]
        simp [receivedWelcome, hp, hne]
      · by_cases h001 : s.command = "001"
        · simp only [connectLoop, hp]
          rw [if_neg h433, if_pos h001]
          simp [receivedWelcome, hp, h001]
        · simp only [connectLoop, hp]
          rw [if_neg h433, if_neg h001]
          rw [ih nick]
          have hne : (s.command == "001") = false := by simp [h001]
          simp [receivedWelcome, hp, hne]

theorem connectLoop_outcome_cases (readErr : String) (lines : List String) :
    ∀ nick, (connectLoop readErr nick lines).outcome = .ok ∨
      (connectLoop readErr nick lines).outcome = .registrationError readErr := by
  induction lines with
  | nil =>
    intro nick
    simp [connectLoop]
  | cons l ls ih =>
    intro nick
    rcases hp : ParseServerLine l with _ | s
    · simp only [connectLoop, hp]
      exact ih nick
    · by_cases h433 : s.command = "433"
      · simp only [connectLoop, hp]
        rw [if_pos h433]
        exact ih (nick ++ "_")
      · by_cases h001 : s.command = "001"
        · simp only [connectLoop, hp]
          rw [if_neg h433, if_pos h001]
          left
          rfl
        · simp only [connectLoop, hp]
          rw [if_neg h433, if_neg h001]
          exact ih nick

/-- C3 counterexample: with the transport connect succeeding but the
process started with an extra command-line argument (`len(os.Args) > 1`,
`ircclient.go` line 196), `Connect` returns success immediately: no NICK or
USER line is sent and no numeric 001 has been received (the input stream is
empty). -/
theorem connect_restart_counterexample :
    Connect none 2 "bot" "id" "rn" "E" [] =
      .finished ⟨[], [], .ok⟩ ∧
    receivedWelcome ([] : List String) = false :=
  ⟨rfl, rfl⟩

/-- C3 (amended: provided the process carries no extra command-line
arguments): after a successful transport connect, `Connect` sends NICK then
USER, then reads lines; it returns success exactly when some line with
numeric 001 is received, and otherwise — the transport read failing, i.e.
the input stream ending — returns the transport's registration error. -/
theorem connect_registration (argsLen : Nat)
    (nick ident realname readErr : String) (lines : List String)
    (hargs : argsLen ≤ 1) :
    Connect none argsLen nick ident realname readErr lines =
      .finished ⟨("NICK " ++ nick) ::
                   ("USER " ++ ident ++ " * Q :" ++ realname) ::
                   (connectLoop readErr nick lines).outputs,
                 (connectLoop readErr nick lines).nickSets,
                 (connectLoop readErr nick lines).outcome⟩ ∧
    ((connectLoop readErr nick lines).outcome = .ok ↔
      receivedWelcome lines = true) ∧
    (receivedWelcome lines = false →
      (connectLoop readErr nick lines).outcome = .registrationError readErr) := by
  refine ⟨?_, connectLoop_ok_iff readErr lines nick, ?_⟩
  · unfold Connect
    rw [if_neg (by omega)]
  · intro hno
    rcases connectLoop_outcome_cases readErr lines nick with hok | herr
    · rw [connectLoop_ok_iff readErr lines nick] at hok
      rw [hok] at hno
      cases hno
    · exact herr

/-- Witness for C3 at a concrete run: one received 001 line completes the
handshake successfully, with NICK and USER sent first. -/
theorem connect_registration_witness :
    Connect none 1 "bot" "id" "rn" "E" [":server 001 bot :welcome"] =
      .finished ⟨("NICK " ++ "bot") ::
                   ("USER " ++ "id" ++ " * Q :" ++ "rn") ::
                   (connectLoop "E" "bot" [":server 001 bot :welcome"]).outputs,
                 (connectLoop "E" "bot" [":server 001 bot :welcome"]).nickSets,
                 (connectLoop "E" "bot" [":server 001 bot :welcome"]).outcome⟩ ∧
    ((connectLoop "E" "bot" [":server 001 bot :welcome"]).outcome = .ok ↔
      receivedWelcome [":server 001 bot :welcome"] = true) ∧
    (receivedWelcome [":server 001 bot :welcome"] = false →
      (connectLoop "E" "bot" [":server 001 bot :welcome"]).outcome =
        .registrationError "E") :=
  connect_registration 1 "bot" "id" "rn" "E" [":server 001 bot :welcome"]
    (by decide)

/-- `n` underscores. -/
def underscores (n : Nat) : String :=
  ⟨List.replicate n '_'⟩

theorem append_underscores (nick : String) (k : Nat) :
    (nick ++ "_") ++ underscores k = nick ++ underscores (k + 1) := by
  apply String.ext
  simp [String.data_append, underscores, List.replicate_succ]

/-- C4: a run of `n` consecutive 433 replies makes the registration loop
append one underscore per reply: the `i`-th retry persists and announces
the candidate nickname with `i` underscores, and the loop keeps running
(here until the stream ends). -/
theorem connect_433_underscores (readErr : String) (l : String) (s : IRCMessage)
    (hp : ParseServerLine l = some s) (hc : s.command = "433") (n : Nat) :
    ∀ nick, connectLoop readErr nick (List.replicate n l) =
      ⟨(List.range n).map (fun i => "NICK " ++ (nick ++ underscores (i + 1))),
       (List.range n).map (fun i => nick ++ underscores (i + 1)),
       .registrationError readErr⟩ := by
  induction n with
  | zero =>
    intro nick
    simp [connectLoop]
  | succ n ih =>
    intro nick
    rw [List.replicate_succ]
    simp only [connectLoop, hp]
    rw [if_pos hc, ih (nick ++ "_")]
    rw [List.range_succ_eq_map]
    refine congrArg₂ (fun a b => ConnectTrace.mk a b (.registrationError readErr)) ?_ ?_
    · simp only [List.map_cons, List.map_map]
      refine congrArg₂ List.cons ?_ ?_
      · rw [show nick ++ underscores 1 = nick ++ "_" from ?_]
        apply String.ext
        simp [String.data_append, underscores]
      · apply List.map_congr_left
        intro i _
        simp only [Function.comp]
        rw [append_underscores]
    · simp only [List.map_cons, List.map_map]
      refine congrArg₂ List.cons ?_ ?_
      · apply String.ext
        simp [String.data_append, underscores]
      · apply List.map_congr_left
        intro i _
        simp only [Function.comp]
        rw [append_underscores]

/-- Witness for C4 at a concrete run: three 433 replies in a row yield
`bot_`, `bot__`, `bot___`, each persisted and each announced with a NICK
line, and the loop is still running when the stream ends. -/
theorem connect_433_underscores_witness :
    connectLoop "E" "bot"
        (List.replicate 3 ":srv 433 * bot :Nickname is already in use") =
      ⟨["NICK bot_", "NICK bot__", "NICK bot___"],
       ["bot_", "bot__", "bot___"],
       .registrationError "E"⟩ := by
  have h := connect_433_underscores "E" ":srv 433 * bot :Nickname is already in use"
    ⟨"srv", "433", "*", ["bot", "Nickname is already in use"]⟩ rfl rfl 3 "bot"
  simpa using h

end MettBot
